import Mathlib

set_option maxRecDepth 8000

/-!
Shallow embedding of the mlxreg-hotplug event-dispatch engine
(drivers/platform/mellanox/mlxreg-hotplug.c): the work handler that walks the
aggregation/per-group status register hierarchy, diffs observed bits against
cached state, applies inversion and health semantics, and drives device
attach/detach, together with its IRQ setup and teardown paths.

Register I/O is modelled by an oracle assigning each address a read result
(`none` meaning a read failure) and each write a success bit.  Machine
integers are natural numbers truncated with explicit `% 2 ^ 32` where the C
code works on `u32` values.
-/

namespace MlxregHotplug

/-- Offset of the event register from the status register. -/
def MLXREG_HOTPLUG_EVENT_OFF : Nat := 1

/-- Offset of the mask register from the status register. -/
def MLXREG_HOTPLUG_MASK_OFF : Nat := 2

/-- Offset of the aggregation mask register from the aggregation status register. -/
def MLXREG_HOTPLUG_AGGR_MASK_OFF : Nat := 1

/-- ASIC good health mask: the 2-bit health code meaning steady good state. -/
def MLXREG_HOTPLUG_GOOD_HEALTH_MASK : Nat := 2

/-- Number of handler invocations with no assertion after which a re-scan is forced. -/
def MLXREG_HOTPLUG_NOT_ASSERT : Nat := 3

/-- Truncation to an unsigned 32-bit value, as performed by `u32` register reads. -/
def u32 (n : Nat) : Nat := n % 2 ^ 32

/-- Rotate a 32-bit word right by `shift` positions (the kernel `ror32`). -/
def ror32 (word shift : Nat) : Nat :=
  ((word % 2 ^ 32) >>> (shift % 32) ||| (word % 2 ^ 32) <<< ((32 - shift % 32) % 32)) % 2 ^ 32

/-- A device lifecycle transition issued by the dispatch code: the create path
(`mlxreg_hotplug_device_create`) or the destroy path (`mlxreg_hotplug_device_destroy`). -/
inductive Action
  | create
  | destroy
deriving DecidableEq

/-- One monitored physical unit (`struct mlxreg_core_data`): its status register,
bit/mask, capability register, hotplug device bus number and address, the
`attached` flag and health retry counter, and the live i2c client/adapter
handles of `data->hpdev`. -/
structure Slot where
  reg : Nat := 0
  bit : Nat := 0
  mask : Nat := 0
  capability : Nat := 0
  nr : Int := -1
  addr : Nat := 0
  attached : Bool := false
  health_cntr : Nat := 0
  client : Bool := false
  adapter : Bool := false
deriving DecidableEq

/-- One monitored group (`struct mlxreg_core_item`): status register, aggregation
bits, group bitmask, capability register, cached status, inversion and health
flags, and the ordered slot list (`item->data`, with `item->count = slots.length`). -/
structure Item where
  reg : Nat := 0
  aggr_mask : Nat := 0
  mask : Nat := 0
  capability : Nat := 0
  cache : Nat := 0
  inversed : Bool := false
  health : Bool := false
  slots : List Slot := []
deriving DecidableEq

/-- A register operation attempted through the regmap. -/
inductive RegOp
  | read (addr : Nat)
  | write (addr val : Nat)
deriving DecidableEq

/-- Register I/O oracle: `readv a` is the value delivered by `regmap_read` at
address `a` (`none` meaning the read fails), and `writeOk a v` tells whether
`regmap_write a v` succeeds. -/
structure RegIo where
  readv : Nat → Option Nat
  writeOk : Nat → Nat → Bool

/-- Register oracle on which every operation succeeds and every read returns `v`. -/
def constIo (v : Nat) : RegIo :=
  ⟨fun _ => some v, fun _ _ => true⟩

/-- The transition the presence dispatch issues for one asserted bit:
`regval & BIT(bit)` set means create unless the item is inversed, clear means
destroy unless the item is inversed. -/
def bitAction (inversed : Bool) (regval bit : Nat) : Action :=
  if regval.testBit bit then
    (if inversed then Action.destroy else Action.create)
  else
    (if inversed then Action.create else Action.destroy)

/-- The set bits of `asserted` below position 8, in increasing order: the
iteration order of `for_each_set_bit(bit, &asserted, 8)`. -/
def forEachSetBit8 (asserted : Nat) : List Nat :=
  (List.range 8).filter fun bit => asserted.testBit bit

/-- Result of one presence dispatch (`mlxreg_hotplug_work_helper`): the updated
item, the device transitions issued (bit position paired with create/destroy),
the `changed` flag, the register operations attempted in order, and whether the
helper bailed out with a logged error. -/
structure HelperResult where
  item : Item
  transitions : List (Nat × Action)
  changed : Bool
  trace : List RegOp
  err : Bool
deriving DecidableEq

/-- Presence dispatch for a non-health item, `mlxreg_hotplug_work_helper`:
mask the group event, read and mask the status, diff it against the cache by
XOR, store the new cache, issue one create/destroy per asserted bit below 8,
then acknowledge and unmask.  Any failed register operation aborts the
dispatch at that point. -/
def mlxreg_hotplug_work_helper (io : RegIo) (item : Item) (changed0 : Bool) : HelperResult :=
  let wMask := RegOp.write (item.reg + MLXREG_HOTPLUG_MASK_OFF) 0
  if ¬ io.writeOk (item.reg + MLXREG_HOTPLUG_MASK_OFF) 0 then
    ⟨item, [], changed0, [wMask], true⟩
  else
    match io.readv item.reg with
    | none => ⟨item, [], changed0, [wMask, RegOp.read item.reg], true⟩
    | some raw =>
      let regval := u32 raw &&& item.mask
      let asserted := item.cache ^^^ regval
      let item' := { item with cache := regval }
      let changed' := if asserted ≠ 0 then true else changed0
      let transitions :=
        if asserted ≠ 0 then
          (forEachSetBit8 asserted).map fun bit => (bit, bitAction item.inversed regval bit)
        else []
      let t3 := [wMask, RegOp.read item.reg,
                 RegOp.write (item.reg + MLXREG_HOTPLUG_EVENT_OFF) 0]
      if ¬ io.writeOk (item.reg + MLXREG_HOTPLUG_EVENT_OFF) 0 then
        ⟨item', transitions, changed', t3, true⟩
      else if ¬ io.writeOk (item.reg + MLXREG_HOTPLUG_MASK_OFF) item.mask then
        ⟨item', transitions, changed',
         t3 ++ [RegOp.write (item.reg + MLXREG_HOTPLUG_MASK_OFF) item.mask], true⟩
      else
        ⟨item', transitions, changed',
         t3 ++ [RegOp.write (item.reg + MLXREG_HOTPLUG_MASK_OFF) item.mask], false⟩

/-- The slot the presence dispatch addresses for an asserted bit:
`data = item->data + bit`, which is out of bounds (`none`) when the bit has no
corresponding slot. -/
def slotForBit (item : Item) (bit : Nat) : Option Slot :=
  item.slots[bit]?

/-- Outcome of entering `mlxreg_hotplug_work_helper` with a possibly invalid item. -/
inductive EntryResult
  | oops
  | errorLogged (reg mask : Nat)
  | dispatched
deriving DecidableEq

/-- Entry guard of `mlxreg_hotplug_work_helper`: on `!item` the code issues
`dev_err(priv->dev, "False signal: at offset:mask 0x%02x:0x%02x.", item->reg,
item->mask)` and returns.  The two format arguments are themselves loads
through the very pointer just found to be NULL, so producing the log message
requires dereferencing a NULL item; a load through a missing item yields no
value and the access faults. -/
def work_helper_entry (item : Option Item) : EntryResult :=
  match item with
  | some _ => EntryResult.dispatched
  | none =>
    match (none : Option Item).map Item.reg, (none : Option Item).map Item.mask with
    | some r, some m => EntryResult.errorLogged r m
    | _, _ => EntryResult.oops

/-- The 2-bit health code the health dispatch extracts for a slot: rotate the
masked status right by `bit - 1` when `data->bit` is set, otherwise the whole
masked status word. -/
def healthCode (regval : Nat) (s : Slot) : Nat :=
  if s.bit ≠ 0 then ror32 (regval &&& s.mask) (s.bit - 1) else regval

/-- Per-slot step of `mlxreg_hotplug_health_work_helper`: a good health code
on a detached slot creates the device and marks it attached; a non-good code
on an attached slot destroys the device, clears `attached` and resets the
health retry counter; otherwise the slot is untouched. -/
def healthSlotStep (regval : Nat) (s : Slot) : Slot × Option Action :=
  if healthCode regval s = MLXREG_HOTPLUG_GOOD_HEALTH_MASK then
    if ¬ s.attached then ({ s with attached := true }, some Action.create)
    else (s, none)
  else
    if s.attached then
      ({ s with attached := false, health_cntr := 0 }, some Action.destroy)
    else (s, none)

/-- Result of one health dispatch (`mlxreg_hotplug_health_work_helper`): the
updated item, the per-slot outcome list (updated slot paired with the action
issued for it, if any), the `changed` flag, the register operations attempted,
and the error flag. -/
structure HealthResult where
  item : Item
  scan : List (Slot × Option Action)
  changed : Bool
  trace : List RegOp
  err : Bool
deriving DecidableEq

/-- Health dispatch, `mlxreg_hotplug_health_work_helper`: mask the group event,
read and mask the status; if the masked word equals the cache skip straight to
acknowledge, otherwise re-evaluate every slot with `healthSlotStep`, store the
new cache, then acknowledge and unmask.  Any failed register operation aborts
the dispatch at that point. -/
def mlxreg_hotplug_health_work_helper (io : RegIo) (item : Item) (changed0 : Bool) :
    HealthResult :=
  let wMask := RegOp.write (item.reg + MLXREG_HOTPLUG_MASK_OFF) 0
  if ¬ io.writeOk (item.reg + MLXREG_HOTPLUG_MASK_OFF) 0 then
    ⟨item, [], changed0, [wMask], true⟩
  else
    match io.readv item.reg with
    | none => ⟨item, [], changed0, [wMask, RegOp.read item.reg], true⟩
    | some raw =>
      let regval := u32 raw &&& item.mask
      let skip := item.cache = regval
      let scan := if skip then [] else item.slots.map (healthSlotStep regval)
      let item' :=
        if skip then item
        else { item with slots := scan.map Prod.fst, cache := regval }
      let changed' := if skip then changed0 else true
      let t3 := [wMask, RegOp.read item.reg,
                 RegOp.write (item.reg + MLXREG_HOTPLUG_EVENT_OFF) 0]
      if ¬ io.writeOk (item.reg + MLXREG_HOTPLUG_EVENT_OFF) 0 then
        ⟨item', scan, changed', t3, true⟩
      else if ¬ io.writeOk (item.reg + MLXREG_HOTPLUG_MASK_OFF) item.mask then
        ⟨item', scan, changed',
         t3 ++ [RegOp.write (item.reg + MLXREG_HOTPLUG_MASK_OFF) item.mask], true⟩
      else
        ⟨item', scan, changed',
         t3 ++ [RegOp.write (item.reg + MLXREG_HOTPLUG_MASK_OFF) item.mask], false⟩

/-- The immutable configuration the handler receives from platform data:
aggregation register cells and masks, the i2c bus shift, and the optional
presence/wakeup hooks (modelled by the boolean value each hook would return
during the cycle, `none` when the hook is not installed). -/
structure Config where
  cell : Nat := 0
  mask : Nat := 0
  cell_low : Nat := 0
  mask_low : Nat := 0
  shift_nr : Int := 0
  presence : Option Bool := none
  wakeup_signal : Option Bool := none

/-- The mutable per-device state of the handler: the aggregation cache, the
quiet-cycle counter `not_asserted`, the `after_probe` flag and the item list. -/
structure HState where
  aggr_cache : Nat := 0
  not_asserted : Nat := 0
  after_probe : Bool := true
  items : List Item := []
deriving DecidableEq

/-- Dispatch of one item inside the handler loop: the health helper for health
items, the presence helper otherwise; only the updated item and the `changed`
flag feed back into the handler. -/
def itemDispatch (io : RegIo) (item : Item) (changed0 : Bool) : Item × Bool :=
  if item.health then
    let r := mlxreg_hotplug_health_work_helper io item changed0
    (r.item, r.changed)
  else
    let r := mlxreg_hotplug_work_helper io item changed0
    (r.item, r.changed)

/-- The handler's item loop starting at index `i`: each item satisfying `cond`
is dispatched (threading the `changed` flag) and its index recorded; the rest
are left untouched. -/
def dispatchFrom (io : RegIo) (cond : Item → Bool) :
    Nat → List Item → Bool → List Item × List Nat × Bool
  | _, [], ch => ([], [], ch)
  | i, it :: rest, ch =>
    if cond it then
      let p := itemDispatch io it ch
      let r := dispatchFrom io cond (i + 1) rest p.2
      (p.1 :: r.1, i :: r.2.1, r.2.2)
    else
      let r := dispatchFrom io cond (i + 1) rest ch
      (it :: r.1, r.2.1, r.2.2)

/-- Result of one invocation of the work handler: the new state, the indices of
the items dispatched, whether the handler returned through the
cancel-and-reschedule path instead of unmasking, the aggregation-level register
operations attempted, and the error flag. -/
structure HandlerResult where
  state : HState
  dispatched : List Nat
  reschedule : Bool
  trace : List RegOp
  err : Bool
deriving DecidableEq

/-- One cycle of `mlxreg_hotplug_work_handler`.  With a top aggregation
register: mask it, read and mask the aggregation status, diff against the
aggregation cache; when the quiet-cycle counter has reached
`MLXREG_HOTPLUG_NOT_ASSERT` reset it and force the asserted set to the whole
aggregation mask; with nothing asserted bump the counter and unmask, otherwise
dispatch every item whose aggregation bits intersect the asserted set and
either reschedule immediately (after probe) or bump the counter and unmask.
Without an aggregation register: skip the cycle (resetting the counter) when
the counter reached the threshold or a presence/wakeup hook reports no change,
otherwise dispatch every item, bumping the counter when nothing changed. -/
def mlxreg_hotplug_work_handler (cfg : Config) (io : RegIo) (s : HState) : HandlerResult :=
  if cfg.cell ≠ 0 then
    let wm := RegOp.write (cfg.cell + MLXREG_HOTPLUG_AGGR_MASK_OFF) 0
    if ¬ io.writeOk (cfg.cell + MLXREG_HOTPLUG_AGGR_MASK_OFF) 0 then
      ⟨s, [], false, [wm], true⟩
    else
      match io.readv cfg.cell with
      | none => ⟨s, [], false, [wm, RegOp.read cfg.cell], true⟩
      | some raw =>
        let regval := u32 raw &&& cfg.mask
        let diff := s.aggr_cache ^^^ regval
        let s1 := { s with aggr_cache := regval }
        let forced := s1.not_asserted = MLXREG_HOTPLUG_NOT_ASSERT
        let s2 := if forced then { s1 with not_asserted := 0 } else s1
        let aggr_asserted := if forced then cfg.mask else diff
        let t2 := [wm, RegOp.read cfg.cell]
        let unmask := RegOp.write (cfg.cell + MLXREG_HOTPLUG_AGGR_MASK_OFF) cfg.mask
        if aggr_asserted = 0 then
          ⟨{ s2 with not_asserted := s2.not_asserted + 1 }, [], false, t2 ++ [unmask],
           ¬ io.writeOk (cfg.cell + MLXREG_HOTPLUG_AGGR_MASK_OFF) cfg.mask⟩
        else
          let d := dispatchFrom io (fun it => aggr_asserted &&& it.aggr_mask ≠ 0) 0 s2.items false
          let s3 := { s2 with items := d.1 }
          if ¬ s3.after_probe then
            ⟨{ s3 with not_asserted := s3.not_asserted + 1 }, d.2.1, false, t2 ++ [unmask],
             ¬ io.writeOk (cfg.cell + MLXREG_HOTPLUG_AGGR_MASK_OFF) cfg.mask⟩
          else
            ⟨s3, d.2.1, true, t2, false⟩
  else
    if s.not_asserted = MLXREG_HOTPLUG_NOT_ASSERT ∨ cfg.presence = some false ∨
       (cfg.wakeup_signal = some false ∧ s.after_probe) then
      ⟨{ s with not_asserted := 0 }, [], false, [], false⟩
    else
      let d := dispatchFrom io (fun _ => true) 0 s.items false
      let s3 := { s with items := d.1 }
      if ¬ s3.after_probe then
        ⟨s3, d.2.1, false, [], false⟩
      else
        let s4 := if ¬ d.2.2 then { s3 with not_asserted := s3.not_asserted + 1 } else s3
        ⟨s4, d.2.1, true, [], false⟩

/-- Iterated handler cycles, one register oracle per cycle. -/
def runCycles (cfg : Config) : List RegIo → HState → HState
  | [], s => s
  | io :: rest, s => runCycles cfg rest (mlxreg_hotplug_work_handler cfg io s).state

/-- GENMASK(h, 0): the mask of bits 0 through h. -/
def GENMASK0 (h : Nat) : Nat := 2 ^ (h + 1) - 1

/-- Clearing bit `j` of a mask, `mask &= ~BIT(j)`. -/
def clearBit (m j : Nat) : Nat := if m.testBit j then m - 2 ^ j else m

/-- Per-slot capability narrowing of `mlxreg_hotplug_set_irq`: for each slot
with its own capability register, clear the slot's bit from the group mask when
the hardware reports the slot absent (`!(regval & data->bit)`). -/
def narrowSlotMask (capRead : Nat → Nat) : Nat → List Slot → Nat → Nat
  | _, [], m => m
  | j, d :: rest, m =>
    let m' :=
      if d.capability ≠ 0 ∧ capRead d.capability &&& d.bit = 0 then clearBit m j else m
    narrowSlotMask capRead (j + 1) rest m'

/-- Result of the per-item part of `mlxreg_hotplug_set_irq`: the updated item
and the register writes performed for it. -/
structure SetIrqItemResult where
  item : Item
  writes : List (Nat × Nat)
deriving DecidableEq

/-- Per-item setup of `mlxreg_hotplug_set_irq` (reads modelled by the total
oracle `capRead`, the success path): narrow the group mask through the item
capability register (`GENMASK((regval & item->mask) - 1, 0)`), clear the group
event register, narrow further through per-slot capability bits, and only for
an inversed item set the cache to the resulting mask and unmask the group. -/
def mlxreg_hotplug_set_irq_item (capRead : Nat → Nat) (item : Item) : SetIrqItemResult :=
  let mask1 :=
    if item.capability ≠ 0 then GENMASK0 ((capRead item.capability &&& item.mask) - 1)
    else item.mask
  let mask2 := narrowSlotMask capRead 0 item.slots mask1
  let evClear := (item.reg + MLXREG_HOTPLUG_EVENT_OFF, 0)
  if item.inversed then
    ⟨{ item with mask := mask2, cache := mask2 },
     [evClear, (item.reg + MLXREG_HOTPLUG_MASK_OFF, mask2)]⟩
  else
    ⟨{ item with mask := mask2 }, [evClear]⟩

/-- State effect of `mlxreg_hotplug_device_destroy` on a slot: the i2c client
is unregistered and the adapter reference dropped; the `attached` flag is not
touched by this function. -/
def mlxreg_hotplug_device_destroy_slot (d : Slot) : Slot :=
  { d with client := false, adapter := false }

/-- Result of `mlxreg_hotplug_unset_irq`: the updated items, the destroy-path
invocations as (item index, slot index) pairs in order, and the register
writes performed. -/
structure UnsetResult where
  items : List Item
  destroys : List (Nat × Nat)
  writes : List (Nat × Nat)
deriving DecidableEq

/-- Per-item teardown of `mlxreg_hotplug_unset_irq` at item index `i`: mask and
acknowledge the group (through `data->reg` of the first slot, as the C does)
and invoke the destroy path once for every slot of the group. -/
def unsetItem (i : Nat) (item : Item) : Item × List (Nat × Nat) × List (Nat × Nat) :=
  let dreg := match item.slots with | [] => 0 | d :: _ => d.reg
  ({ item with slots := item.slots.map mlxreg_hotplug_device_destroy_slot },
   (List.range item.slots.length).map (fun j => (i, j)),
   [(dreg + MLXREG_HOTPLUG_MASK_OFF, 0), (dreg + MLXREG_HOTPLUG_EVENT_OFF, 0)])

/-- The item loop of `mlxreg_hotplug_unset_irq`, starting at item index `i`. -/
def unsetItems : Nat → List Item → List Item × List (Nat × Nat) × List (Nat × Nat)
  | _, [] => ([], [], [])
  | i, it :: rest =>
    let p := unsetItem i it
    let r := unsetItems (i + 1) rest
    (p.1 :: r.1, p.2.1 ++ r.2.1, p.2.2 ++ r.2.2)

/-- Teardown, `mlxreg_hotplug_unset_irq`: mask both aggregation tiers when
configured, then mask, acknowledge and destroy every slot of every item. -/
def mlxreg_hotplug_unset_irq (cfg : Config) (s : HState) : UnsetResult :=
  let aggrW :=
    (if cfg.cell_low ≠ 0 then [(cfg.cell_low + MLXREG_HOTPLUG_AGGR_MASK_OFF, 0)] else []) ++
    (if cfg.cell ≠ 0 then [(cfg.cell + MLXREG_HOTPLUG_AGGR_MASK_OFF, 0)] else [])
  let r := unsetItems 0 s.items
  ⟨r.1, r.2.1, aggrW ++ r.2.2⟩

/-- The set of live bound devices behind the dynamically numbered buses,
as (bus number, address) pairs. -/
abbrev Bus := List (Int × Nat)

/-- Modelled from the spec: the external DeviceBinder (the i2c core, which is
not part of this repository) rejects creating a second client at an adapter
address that already carries one, and otherwise registers the new client. -/
def i2c_new_device (bus : Bus) (nr : Int) (addr : Nat) : Option Bus :=
  if (nr, addr) ∈ bus then none else some ((nr, addr) :: bus)

/-- Result of `mlxreg_hotplug_device_create`: the bus state, the slot with its
updated hotplug-device handles, and the returned status (0 on success,
-EFAULT = -14 when the client could not be created). -/
structure CreateResult where
  bus : Bus
  data : Slot
  ret : Int
deriving DecidableEq

/-- Create path, `mlxreg_hotplug_device_create` (notification side effects
omitted): a negative adapter number means the event has no hotplug device and
the call is a no-op returning 0; otherwise the adapter is taken and a new
client registered at `(data->hpdev.nr + pdata->shift_nr, brdinfo->addr)`.  If
the client cannot be created the adapter is put back, the stored client and
adapter handles are overwritten with NULL and -EFAULT is returned. -/
def mlxreg_hotplug_device_create (shift_nr : Int) (bus : Bus) (d : Slot) : CreateResult :=
  if d.nr < 0 then ⟨bus, d, 0⟩
  else
    let d1 := { d with adapter := true }
    match i2c_new_device bus (d.nr + shift_nr) d.addr with
    | some bus' => ⟨bus', { d1 with client := true }, 0⟩
    | none => ⟨bus, { d1 with client := false, adapter := false }, -14⟩

/-! ## General lemmas about the embedded operations -/

/-- Membership in the iterated bit list of `for_each_set_bit(bit, &asserted, 8)`. -/
theorem mem_forEachSetBit8 {a bit : Nat} :
    bit ∈ forEachSetBit8 a ↔ bit < 8 ∧ a.testBit bit := by
  simp [forEachSetBit8, List.mem_filter, List.mem_range]

/-- The bit list iterated by the presence dispatch has no duplicates. -/
theorem nodup_forEachSetBit8 (a : Nat) : (forEachSetBit8 a).Nodup :=
  List.Nodup.filter _ (List.nodup_range 8)

/-- Each bit position occurs in the iterated bit list exactly once when it is
an asserted position below 8, and never otherwise. -/
theorem count_forEachSetBit8 (a bit : Nat) :
    (forEachSetBit8 a).count bit = if bit < 8 ∧ a.testBit bit then 1 else 0 := by
  by_cases h : bit < 8 ∧ a.testBit bit
  · rw [if_pos h]
    exact List.count_eq_one_of_mem (nodup_forEachSetBit8 a) (mem_forEachSetBit8.mpr h)
  · rw [if_neg h]
    exact List.count_eq_zero.mpr fun hm => h (mem_forEachSetBit8.mp hm)

/-- Success path of the presence dispatch: when the four register operations of
`mlxreg_hotplug_work_helper` succeed, the helper performs mask, read,
acknowledge, unmask in that order, caches the masked value and issues one
transition per asserted bit below 8. -/
theorem work_helper_ok (io : RegIo) (item : Item) (c0 : Bool) (raw : Nat)
    (h1 : io.writeOk (item.reg + MLXREG_HOTPLUG_MASK_OFF) 0 = true)
    (h2 : io.readv item.reg = some raw)
    (h3 : io.writeOk (item.reg + MLXREG_HOTPLUG_EVENT_OFF) 0 = true)
    (h4 : io.writeOk (item.reg + MLXREG_HOTPLUG_MASK_OFF) item.mask = true) :
    mlxreg_hotplug_work_helper io item c0 =
      ⟨{ item with cache := u32 raw &&& item.mask },
       (if item.cache ^^^ (u32 raw &&& item.mask) ≠ 0 then
          (forEachSetBit8 (item.cache ^^^ (u32 raw &&& item.mask))).map
            (fun bit => (bit, bitAction item.inversed (u32 raw &&& item.mask) bit))
        else []),
       (if item.cache ^^^ (u32 raw &&& item.mask) ≠ 0 then true else c0),
       [RegOp.write (item.reg + MLXREG_HOTPLUG_MASK_OFF) 0, RegOp.read item.reg,
        RegOp.write (item.reg + MLXREG_HOTPLUG_EVENT_OFF) 0,
        RegOp.write (item.reg + MLXREG_HOTPLUG_MASK_OFF) item.mask],
       false⟩ := by
  unfold mlxreg_hotplug_work_helper
  rw [h2]
  simp [h1, h3, h4]

/-! ## C1: presence diff dispatch -/

/-- C1 (counterexample): the claim that no bit differing between consecutive
observed masked values is skipped fails for bit positions at or above 8.  For
an item with group bitmask 0x100, cached status 0 and an observed raw value
0x100, bit 8 of `asserted = cached ^ (new & mask)` is set and the cache is
updated to 0x100, yet the dispatch issues no transition at all, because the
loop only covers bits 0 through 7. -/
theorem presence_diff_misses_high_bit :
    ((0 : Nat) ^^^ (u32 256 &&& 256)).testBit 8 = true ∧
      (mlxreg_hotplug_work_helper (constIo 256)
        { reg := 0, mask := 256, cache := 0 } false).transitions = [] ∧
      (mlxreg_hotplug_work_helper (constIo 256)
        { reg := 0, mask := 256, cache := 0 } false).item.cache = 256 := by
  decide

/-- C1 (amended): for every non-health item and observed raw value, a
successful presence dispatch computes `asserted = cached ^ (new & mask)`,
stores the masked new value as the new cache, and issues exactly one
create-or-destroy transition per set bit of `asserted` at positions 0 through
7 — no differing bit below 8 is skipped and no unchanged bit triggers a
transition. -/
theorem presence_diff_dispatch (io : RegIo) (item : Item) (c0 : Bool) (raw : Nat)
    (h1 : io.writeOk (item.reg + MLXREG_HOTPLUG_MASK_OFF) 0 = true)
    (h2 : io.readv item.reg = some raw)
    (h3 : io.writeOk (item.reg + MLXREG_HOTPLUG_EVENT_OFF) 0 = true)
    (h4 : io.writeOk (item.reg + MLXREG_HOTPLUG_MASK_OFF) item.mask = true) :
    (mlxreg_hotplug_work_helper io item c0).item.cache = u32 raw &&& item.mask ∧
    (mlxreg_hotplug_work_helper io item c0).err = false ∧
    ∀ bit : Nat,
      ((mlxreg_hotplug_work_helper io item c0).transitions.map Prod.fst).count bit =
        if bit < 8 ∧ (item.cache ^^^ (u32 raw &&& item.mask)).testBit bit then 1 else 0 := by
  rw [work_helper_ok io item c0 raw h1 h2 h3 h4]
  refine ⟨rfl, rfl, fun bit => ?_⟩
  by_cases ha : item.cache ^^^ (u32 raw &&& item.mask) ≠ 0
  · rw [if_pos ha]
    rw [List.map_map]
    have : (Prod.fst ∘ fun bit => ((bit, bitAction item.inversed (u32 raw &&& item.mask) bit) :
        Nat × Action)) = id := rfl
    rw [this, List.map_id]
    exact count_forEachSetBit8 _ bit
  · rw [if_neg ha]
    push_neg at ha
    simp [ha, Nat.zero_testBit]

/-- C1 (witness): concrete run of the amended theorem, an item with bitmask
0b11 and cache 0 observing raw value 0b01: bit 0 gets exactly one transition,
bit 1 none, and the cache becomes 0b01. -/
theorem presence_diff_dispatch_witness :
    (mlxreg_hotplug_work_helper (constIo 1)
      { reg := 0, mask := 3, cache := 0 } false).item.cache = u32 1 &&& 3 ∧
    ((mlxreg_hotplug_work_helper (constIo 1)
      { reg := 0, mask := 3, cache := 0 } false).transitions.map Prod.fst).count 0 = 1 := by
  have h := presence_diff_dispatch (constIo 1) { reg := 0, mask := 3, cache := 0 } false 1
    rfl rfl rfl rfl
  exact ⟨h.1, by rw [h.2.2 0]; decide⟩

/-! ## C3: inversion law -/

/-- C3 (confirmed): for every transition issued by the presence dispatch, the
effective presence decision is the raw status bit XOR the item's inversed
flag: the create path is taken exactly when the masked status bit differs from
`inversed`, and the destroy path exactly when it equals `inversed`. -/
theorem presence_inversion_law (io : RegIo) (item : Item) (c0 : Bool) (raw bit : Nat)
    (a : Action)
    (h1 : io.writeOk (item.reg + MLXREG_HOTPLUG_MASK_OFF) 0 = true)
    (h2 : io.readv item.reg = some raw)
    (h3 : io.writeOk (item.reg + MLXREG_HOTPLUG_EVENT_OFF) 0 = true)
    (h4 : io.writeOk (item.reg + MLXREG_HOTPLUG_MASK_OFF) item.mask = true)
    (hmem : (bit, a) ∈ (mlxreg_hotplug_work_helper io item c0).transitions) :
    (a = Action.create ↔ ((u32 raw &&& item.mask).testBit bit ≠ item.inversed)) ∧
    (a = Action.destroy ↔ ((u32 raw &&& item.mask).testBit bit = item.inversed)) := by
  rw [work_helper_ok io item c0 raw h1 h2 h3 h4] at hmem
  have ha : a = bitAction item.inversed (u32 raw &&& item.mask) bit := by
    by_cases hz : item.cache ^^^ (u32 raw &&& item.mask) ≠ 0
    · rw [if_pos hz] at hmem
      rcases List.mem_map.mp hmem with ⟨b, _, hb⟩
      have hb1 : b = bit := congrArg Prod.fst hb
      have hb2 := congrArg Prod.snd hb
      simpa [hb1] using hb2.symm
    · rw [if_neg hz] at hmem
      exact absurd hmem (List.not_mem_nil _)
  subst ha
  unfold bitAction
  cases htb : (u32 raw &&& item.mask).testBit bit <;> cases hi : item.inversed <;> simp

/-- C3 (witness): concrete inversion check — a non-inversed item observing a
newly set bit 0 takes the create path. -/
theorem presence_inversion_law_witness :
    (Action.create = Action.create ↔
      ((u32 1 &&& 3).testBit 0 ≠ ({ reg := 0, mask := 3, cache := 0 } : Item).inversed)) := by
  exact (presence_inversion_law (constIo 1) { reg := 0, mask := 3, cache := 0 } false 1 0
    Action.create rfl rfl rfl rfl (by decide)).1

/-! ## C10: bits at positions 8 and above are never dispatched -/

/-- C10 (confirmed): the presence dispatch only ever issues transitions for
bit positions 0 through 7; the cache is still updated to the full masked new
value, and when the masked value changes only in positions 8 and above no
transition at all is issued. -/
theorem presence_high_bits_not_dispatched (io : RegIo) (item : Item) (c0 : Bool) (raw : Nat)
    (h1 : io.writeOk (item.reg + MLXREG_HOTPLUG_MASK_OFF) 0 = true)
    (h2 : io.readv item.reg = some raw)
    (h3 : io.writeOk (item.reg + MLXREG_HOTPLUG_EVENT_OFF) 0 = true)
    (h4 : io.writeOk (item.reg + MLXREG_HOTPLUG_MASK_OFF) item.mask = true) :
    (mlxreg_hotplug_work_helper io item c0).item.cache = u32 raw &&& item.mask ∧
    (∀ p ∈ (mlxreg_hotplug_work_helper io item c0).transitions, p.1 < 8) ∧
    ((∀ b, b < 8 → (item.cache ^^^ (u32 raw &&& item.mask)).testBit b = false) →
      (mlxreg_hotplug_work_helper io item c0).transitions = []) := by
  rw [work_helper_ok io item c0 raw h1 h2 h3 h4]
  refine ⟨rfl, ?_, ?_⟩
  · intro p hp
    by_cases hz : item.cache ^^^ (u32 raw &&& item.mask) ≠ 0
    · rw [if_pos hz] at hp
      rcases List.mem_map.mp hp with ⟨b, hb, hpb⟩
      have : b = p.1 := by rw [← hpb]
      rw [← this]
      exact (mem_forEachSetBit8.mp hb).1
    · rw [if_neg hz] at hp
      exact absurd hp (List.not_mem_nil _)
  · intro hlow
    have hnil : forEachSetBit8 (item.cache ^^^ (u32 raw &&& item.mask)) = [] := by
      refine List.filter_eq_nil_iff.mpr fun b hb => ?_
      simp only [Bool.not_eq_true]
      exact hlow b (List.mem_range.mp hb)
    by_cases hz : item.cache ^^^ (u32 raw &&& item.mask) ≠ 0
    · rw [if_pos hz, hnil, List.map_nil]
    · rw [if_neg hz]

/-- C10 (witness): concrete item whose masked status changes only at bit 8 —
the cache is updated but no transition is issued. -/
theorem presence_high_bits_not_dispatched_witness :
    (mlxreg_hotplug_work_helper (constIo 256)
      { reg := 4, mask := 256, cache := 0 } false).item.cache = u32 256 &&& 256 ∧
    (mlxreg_hotplug_work_helper (constIo 256)
      { reg := 4, mask := 256, cache := 0 } false).transitions = [] := by
  have h := presence_high_bits_not_dispatched (constIo 256)
    { reg := 4, mask := 256, cache := 0 } false 256 rfl rfl rfl rfl
  exact ⟨h.1, h.2.2 (by decide)⟩

/-! ## C2: quiet-cycle counter and forced re-scan -/

/-- An item satisfying the handler's dispatch condition and sitting at
position `j` of the item list is dispatched, with its index recorded in the
dispatch list. -/
theorem dispatchFrom_mem (io : RegIo) (cond : Item → Bool) :
    ∀ (items : List Item) (k j : Nat) (ch : Bool) (it : Item),
      items[j]? = some it → cond it = true →
      k + j ∈ (dispatchFrom io cond k items ch).2.1 := by
  intro items
  induction items with
  | nil => intro k j ch it h _; simp at h
  | cons hd tl ih =>
    intro k j ch it hget hcond
    cases j with
    | zero =>
      have hhd : hd = it := by simpa using hget
      subst hhd
      unfold dispatchFrom
      simp [hcond]
    | succ j' =>
      have hget' : tl[j']? = some it := by simpa using hget
      have harith : k + (j' + 1) = (k + 1) + j' := by omega
      unfold dispatchFrom
      by_cases hc : cond hd
      · simp only [hc, if_true]
        rw [harith]
        exact List.mem_cons_of_mem _ (ih (k + 1) j' _ it hget' hcond)
      · simp only [hc, if_false]
        rw [harith]
        exact ih (k + 1) j' _ it hget' hcond

/-- C2 (counterexample): the quiet-cycle counter does not need 3 consecutive
quiet cycles to reach 3, because an active cycle leaves it unchanged instead
of resetting it.  Concretely, over the four cycles reading aggregation values
0, 1, 1, 1 from a fresh state, cycle 2 detects a change and dispatches
(leaving the counter at 1), yet after cycle 4 the counter is 3 although the
three quiet cycles (1, 3 and 4) were not consecutive. -/
theorem quiet_counter_not_consecutive :
    (runCycles { cell := 4, mask := 1 } [constIo 0, constIo 1, constIo 1, constIo 1]
      {}).not_asserted = 3 ∧
    (mlxreg_hotplug_work_handler { cell := 4, mask := 1 } (constIo 1)
      (mlxreg_hotplug_work_handler { cell := 4, mask := 1 } (constIo 0) {}).state).reschedule
      = true ∧
    (mlxreg_hotplug_work_handler { cell := 4, mask := 1 } (constIo 1)
      (mlxreg_hotplug_work_handler { cell := 4, mask := 1 } (constIo 0) {}).state).state.not_asserted
      = (mlxreg_hotplug_work_handler { cell := 4, mask := 1 } (constIo 0) {}).state.not_asserted := by
  decide

/-- C2 (amended): with a top aggregation register configured and the
aggregation mask write and read succeeding, a cycle that starts with the
quiet-cycle counter at 3 resets it to 0 and forces the asserted set to the
full aggregation mask, dispatching every item whose aggregation bits intersect
that mask; a quiet cycle (no aggregate diff) increments the counter by exactly
one and dispatches nothing; an active cycle leaves the counter unchanged — so
the counter reaches 3 after 3 quiet cycles since it last was reset, which need
not be consecutive. -/
theorem aggregation_quiet_counter (cfg : Config) (io : RegIo) (s : HState) (raw : Nat)
    (hcell : cfg.cell ≠ 0)
    (h1 : io.writeOk (cfg.cell + MLXREG_HOTPLUG_AGGR_MASK_OFF) 0 = true)
    (h2 : io.readv cfg.cell = some raw)
    (hpr : s.after_probe = true) :
    (s.not_asserted = 3 → cfg.mask ≠ 0 →
      (mlxreg_hotplug_work_handler cfg io s).state.not_asserted = 0 ∧
      ∀ (i : Nat) (it : Item), s.items[i]? = some it → cfg.mask &&& it.aggr_mask ≠ 0 →
        i ∈ (mlxreg_hotplug_work_handler cfg io s).dispatched) ∧
    (s.not_asserted ≠ 3 → s.aggr_cache = u32 raw &&& cfg.mask →
      (mlxreg_hotplug_work_handler cfg io s).state.not_asserted = s.not_asserted + 1 ∧
      (mlxreg_hotplug_work_handler cfg io s).dispatched = []) ∧
    (s.not_asserted ≠ 3 → s.aggr_cache ≠ u32 raw &&& cfg.mask →
      (mlxreg_hotplug_work_handler cfg io s).state.not_asserted = s.not_asserted) := by
  refine ⟨?_, ?_, ?_⟩
  · intro h3 hm
    unfold mlxreg_hotplug_work_handler
    rw [if_pos hcell, h2]
    simp [h1, h3, hm, hpr, MLXREG_HOTPLUG_NOT_ASSERT]
    intro i it hget hint
    have := dispatchFrom_mem io (fun it => !decide (cfg.mask &&& it.aggr_mask = 0)) s.items 0 i
      false it hget (by simp [hint])
    simpa using this
  · intro hne hq
    unfold mlxreg_hotplug_work_handler
    rw [if_pos hcell, h2]
    have hdiff : s.aggr_cache ^^^ (u32 raw &&& cfg.mask) = 0 := by
      rw [hq]; exact Nat.xor_self _
    simp [h1, MLXREG_HOTPLUG_NOT_ASSERT, hne, hdiff]
  · intro hne ha
    unfold mlxreg_hotplug_work_handler
    rw [if_pos hcell, h2]
    have hdiff : s.aggr_cache ^^^ (u32 raw &&& cfg.mask) ≠ 0 := by
      intro h0; exact ha (Nat.xor_eq_zero.mp h0)
    simp [h1, MLXREG_HOTPLUG_NOT_ASSERT, hne, hdiff, hpr]

/-- C2 (witness): concrete forced re-scan — a cycle starting with the counter
at 3 resets it and dispatches the single configured item even though the
aggregation diff is empty. -/
theorem aggregation_quiet_counter_witness :
    (mlxreg_hotplug_work_handler { cell := 4, mask := 1 } (constIo 1)
      { aggr_cache := 1, not_asserted := 3,
        items := [{ aggr_mask := 1 }] }).state.not_asserted = 0 ∧
    0 ∈ (mlxreg_hotplug_work_handler { cell := 4, mask := 1 } (constIo 1)
      { aggr_cache := 1, not_asserted := 3, items := [{ aggr_mask := 1 }] }).dispatched := by
  have h := (aggregation_quiet_counter { cell := 4, mask := 1 } (constIo 1)
    { aggr_cache := 1, not_asserted := 3, items := [{ aggr_mask := 1 }] } 1
    (by decide) rfl rfl rfl).1 rfl (by decide)
  exact ⟨h.1, h.2 0 { aggr_mask := 1 } rfl (by decide)⟩

/-! ## C4: health dispatch -/

/-- Skip path of the health dispatch: when the masked status word equals the
cached value, no slot is re-evaluated and the item is left unchanged (the
event is still acknowledged and unmasked). -/
theorem health_helper_skip (io : RegIo) (item : Item) (c0 : Bool) (raw : Nat)
    (h1 : io.writeOk (item.reg + MLXREG_HOTPLUG_MASK_OFF) 0 = true)
    (h2 : io.readv item.reg = some raw)
    (h3 : io.writeOk (item.reg + MLXREG_HOTPLUG_EVENT_OFF) 0 = true)
    (h4 : io.writeOk (item.reg + MLXREG_HOTPLUG_MASK_OFF) item.mask = true)
    (hskip : item.cache = u32 raw &&& item.mask) :
    mlxreg_hotplug_health_work_helper io item c0 =
      ⟨item, [], c0,
       [RegOp.write (item.reg + MLXREG_HOTPLUG_MASK_OFF) 0, RegOp.read item.reg,
        RegOp.write (item.reg + MLXREG_HOTPLUG_EVENT_OFF) 0,
        RegOp.write (item.reg + MLXREG_HOTPLUG_MASK_OFF) item.mask],
       false⟩ := by
  unfold mlxreg_hotplug_health_work_helper
  rw [h2]
  simp [h1, h3, h4, hskip]

/-- Scan path of the health dispatch: when the masked status word differs from
the cached value, every slot is re-evaluated through `healthSlotStep` and the
new masked value is cached. -/
theorem health_helper_scan (io : RegIo) (item : Item) (c0 : Bool) (raw : Nat)
    (h1 : io.writeOk (item.reg + MLXREG_HOTPLUG_MASK_OFF) 0 = true)
    (h2 : io.readv item.reg = some raw)
    (h3 : io.writeOk (item.reg + MLXREG_HOTPLUG_EVENT_OFF) 0 = true)
    (h4 : io.writeOk (item.reg + MLXREG_HOTPLUG_MASK_OFF) item.mask = true)
    (hne : item.cache ≠ u32 raw &&& item.mask) :
    mlxreg_hotplug_health_work_helper io item c0 =
      ⟨{ item with
          slots := (item.slots.map (healthSlotStep (u32 raw &&& item.mask))).map Prod.fst,
          cache := u32 raw &&& item.mask },
       item.slots.map (healthSlotStep (u32 raw &&& item.mask)), true,
       [RegOp.write (item.reg + MLXREG_HOTPLUG_MASK_OFF) 0, RegOp.read item.reg,
        RegOp.write (item.reg + MLXREG_HOTPLUG_EVENT_OFF) 0,
        RegOp.write (item.reg + MLXREG_HOTPLUG_MASK_OFF) item.mask],
       false⟩ := by
  unfold mlxreg_hotplug_health_work_helper
  rw [h2]
  simp [h1, h3, h4, hne]

/-- C4 (confirmed): the health dispatch is skipped entirely when the masked
status word equals the cached value; otherwise each slot is re-evaluated with
its rotate-extracted health code, and the code 0b10 (good) on a detached slot
creates the device and marks it attached, any other code (0b00, 0b01 and the
booting code 0b11) on an attached slot destroys the device, clears `attached`
and resets the health retry counter, a good code on an attached slot and a
non-good code on a detached slot change nothing, and the booting code 0b11 by
itself never triggers a create. -/
theorem health_dispatch (io : RegIo) (item : Item) (c0 : Bool) (raw : Nat)
    (h1 : io.writeOk (item.reg + MLXREG_HOTPLUG_MASK_OFF) 0 = true)
    (h2 : io.readv item.reg = some raw)
    (h3 : io.writeOk (item.reg + MLXREG_HOTPLUG_EVENT_OFF) 0 = true)
    (h4 : io.writeOk (item.reg + MLXREG_HOTPLUG_MASK_OFF) item.mask = true) :
    (item.cache = u32 raw &&& item.mask →
      (mlxreg_hotplug_health_work_helper io item c0).item = item ∧
      (mlxreg_hotplug_health_work_helper io item c0).scan = []) ∧
    (item.cache ≠ u32 raw &&& item.mask →
      (mlxreg_hotplug_health_work_helper io item c0).item.cache = u32 raw &&& item.mask ∧
      ∀ (j : Nat) (s0 : Slot), item.slots[j]? = some s0 →
        (mlxreg_hotplug_health_work_helper io item c0).scan[j]? =
          some (healthSlotStep (u32 raw &&& item.mask) s0)) ∧
    (∀ (regval : Nat) (s0 : Slot),
      (healthCode regval s0 = MLXREG_HOTPLUG_GOOD_HEALTH_MASK → s0.attached = false →
        healthSlotStep regval s0 = ({ s0 with attached := true }, some Action.create)) ∧
      (healthCode regval s0 = MLXREG_HOTPLUG_GOOD_HEALTH_MASK → s0.attached = true →
        healthSlotStep regval s0 = (s0, none)) ∧
      (healthCode regval s0 ≠ MLXREG_HOTPLUG_GOOD_HEALTH_MASK → s0.attached = true →
        healthSlotStep regval s0 =
          ({ s0 with attached := false, health_cntr := 0 }, some Action.destroy)) ∧
      (healthCode regval s0 ≠ MLXREG_HOTPLUG_GOOD_HEALTH_MASK → s0.attached = false →
        healthSlotStep regval s0 = (s0, none)) ∧
      (healthCode regval s0 = 3 → (healthSlotStep regval s0).2 ≠ some Action.create)) := by
  refine ⟨?_, ?_, ?_⟩
  · intro hskip
    rw [health_helper_skip io item c0 raw h1 h2 h3 h4 hskip]
    exact ⟨rfl, rfl⟩
  · intro hne
    rw [health_helper_scan io item c0 raw h1 h2 h3 h4 hne]
    refine ⟨rfl, fun j s0 hget => ?_⟩
    simp only [List.getElem?_map, hget, Option.map_some']
  · intro regval s0
    refine ⟨?_, ?_, ?_, ?_, ?_⟩
    · intro hg hd; simp [healthSlotStep, hg, hd]
    · intro hg hd; simp [healthSlotStep, hg, hd]
    · intro hg hd; simp [healthSlotStep, hg, hd]
    · intro hg hd; simp [healthSlotStep, hg, hd]
    · intro hb
      have hg : healthCode regval s0 ≠ MLXREG_HOTPLUG_GOOD_HEALTH_MASK := by
        rw [hb]; decide
      cases hd : s0.attached <;> simp [healthSlotStep, hg, hd]

/-- C4 (witness): concrete health item whose single slot reaches the good
code 0b10 from a detached state — the create path fires and the slot is
marked attached; and the booting code 0b11 issues no create. -/
theorem health_dispatch_witness :
    (mlxreg_hotplug_health_work_helper (constIo 2)
      { reg := 16, mask := 3, cache := 0, health := true,
        slots := [{ bit := 0, mask := 3 }] } false).scan[0]? =
      some (healthSlotStep (u32 2 &&& 3) { bit := 0, mask := 3 }) ∧
    (healthSlotStep 3 ({ bit := 0, mask := 3 } : Slot)).2 ≠ some Action.create := by
  have h := health_dispatch (constIo 2)
    { reg := 16, mask := 3, cache := 0, health := true, slots := [{ bit := 0, mask := 3 }] }
    false 2 rfl rfl rfl rfl
  refine ⟨(h.2.1 (by decide)).2 0 { bit := 0, mask := 3 } rfl, ?_⟩
  exact (h.2.2 3 { bit := 0, mask := 3 }).2.2.2.2 (by decide)

/-! ## C5: cache and mask-register initialization at IRQ setup -/

/-- C5 (counterexample): the claim that every item has its cache set to the
full group bitmask and its mask register unmasked at IRQ setup fails for a
non-inversed item: for an item with mask 1, cache 0 and `inversed = false`,
the setup leaves the cache at 0 (different from the mask) and performs no
write to the item's mask register. -/
theorem set_irq_skips_noninversed_item :
    (mlxreg_hotplug_set_irq_item (fun _ => 0) { reg := 8, mask := 1, cache := 0 }).item.cache ≠
      (mlxreg_hotplug_set_irq_item (fun _ => 0) { reg := 8, mask := 1, cache := 0 }).item.mask ∧
    ¬ ((8 + MLXREG_HOTPLUG_MASK_OFF,
        (mlxreg_hotplug_set_irq_item (fun _ => 0) { reg := 8, mask := 1, cache := 0 }).item.mask) ∈
      (mlxreg_hotplug_set_irq_item (fun _ => 0) { reg := 8, mask := 1, cache := 0 }).writes) := by
  decide

/-- C5 (amended): during IRQ setup, for every item with `inversed = true` the
cached status is set to the item's full group bitmask as narrowed by the
capability registers, and the item's mask register is written with that same
bitmask (unmasked); a non-inversed item is left untouched in both respects. -/
theorem set_irq_inversed_initializes (capRead : Nat → Nat) (item : Item)
    (hinv : item.inversed = true) :
    (mlxreg_hotplug_set_irq_item capRead item).item.cache =
      (mlxreg_hotplug_set_irq_item capRead item).item.mask ∧
    (item.reg + MLXREG_HOTPLUG_MASK_OFF,
      (mlxreg_hotplug_set_irq_item capRead item).item.mask) ∈
      (mlxreg_hotplug_set_irq_item capRead item).writes := by
  unfold mlxreg_hotplug_set_irq_item
  simp [hinv]

/-- C5 (witness): concrete inversed item with group bitmask 0xF whose
capability register reports 2 populated slots — after setup its cache equals
its capability-narrowed mask, which is GENMASK((2 & 0xF) - 1, 0) = 0b11, and
the mask register unmask write is recorded. -/
theorem set_irq_inversed_initializes_witness :
    (mlxreg_hotplug_set_irq_item (fun _ => 2)
      { reg := 8, mask := 15, capability := 20, inversed := true }).item.cache =
      (mlxreg_hotplug_set_irq_item (fun _ => 2)
        { reg := 8, mask := 15, capability := 20, inversed := true }).item.mask ∧
    ((8 : Nat) + MLXREG_HOTPLUG_MASK_OFF,
      (mlxreg_hotplug_set_irq_item (fun _ => 2)
        { reg := 8, mask := 15, capability := 20, inversed := true }).item.mask) ∈
      (mlxreg_hotplug_set_irq_item (fun _ => 2)
        { reg := 8, mask := 15, capability := 20, inversed := true }).writes ∧
    (mlxreg_hotplug_set_irq_item (fun _ => 2)
      { reg := 8, mask := 15, capability := 20, inversed := true }).item.mask = 3 := by
  have h := set_irq_inversed_initializes (fun _ => 2)
    { reg := 8, mask := 15, capability := 20, inversed := true } rfl
  exact ⟨h.1, h.2, by decide⟩

/-! ## C6: teardown -/

/-- Every destroy invocation recorded by the teardown item loop starting at
index `k` carries an item index of at least `k`. -/
theorem unsetItems_destroys_fst_ge :
    ∀ (items : List Item) (k : Nat) (p : Nat × Nat),
      p ∈ (unsetItems k items).2.1 → k ≤ p.1 := by
  intro items
  induction items with
  | nil => intro k p h; simp [unsetItems] at h
  | cons hd tl ih =>
    intro k p h
    unfold unsetItems at h
    rcases List.mem_append.mp h with hb | hr
    · rcases List.mem_map.mp hb with ⟨j, _, hj⟩
      have : p.1 = k := by rw [← hj]
      omega
    · have := ih (k + 1) p hr
      omega

/-- The teardown item loop records no destroy invocation twice: the
invocation list has no duplicates. -/
theorem unsetItems_destroys_nodup :
    ∀ (items : List Item) (k : Nat), ((unsetItems k items).2.1).Nodup := by
  intro items
  induction items with
  | nil => intro k; exact List.nodup_nil
  | cons hd tl ih =>
    intro k
    have hexp : (unsetItems k (hd :: tl)).2.1 =
        ((List.range hd.slots.length).map fun j => ((k, j) : Nat × Nat)) ++
          (unsetItems (k + 1) tl).2.1 := rfl
    rw [hexp]
    have hinj : Function.Injective (fun j => ((k, j) : Nat × Nat)) := by
      intro a b hab
      simpa using congrArg Prod.snd hab
    refine List.Nodup.append ((List.nodup_range _).map hinj) (ih (k + 1)) ?_
    intro p hp hp'
    rcases List.mem_map.mp hp with ⟨b, _, hb⟩
    have h1 : p.1 = k := by rw [← hb]
    have h2 := unsetItems_destroys_fst_ge tl (k + 1) p hp'
    omega

/-- The teardown item loop records a destroy invocation for the slot at
position `j` of the item at position `i`. -/
theorem unsetItems_destroys_mem :
    ∀ (items : List Item) (k i j : Nat) (it : Item) (d : Slot),
      items[i]? = some it → it.slots[j]? = some d →
      (k + i, j) ∈ (unsetItems k items).2.1 := by
  intro items
  induction items with
  | nil => intro k i j it d h _; simp at h
  | cons hd tl ih =>
    intro k i j it d hget hslot
    have hexp : (unsetItems k (hd :: tl)).2.1 =
        ((List.range hd.slots.length).map fun j => ((k, j) : Nat × Nat)) ++
          (unsetItems (k + 1) tl).2.1 := rfl
    rw [hexp]
    cases i with
    | zero =>
      have hhd : hd = it := by simpa using hget
      subst hhd
      have hj : j < hd.slots.length := (List.getElem?_eq_some_iff.mp hslot).1
      refine List.mem_append.mpr (Or.inl (List.mem_map.mpr ⟨j, List.mem_range.mpr hj, ?_⟩))
      simp
    | succ i' =>
      have hget' : tl[i']? = some it := by simpa using hget
      have harith : k + (i' + 1) = (k + 1) + i' := by omega
      rw [harith]
      exact List.mem_append.mpr (Or.inr (ih (k + 1) i' j it d hget' hslot))

/-- The teardown item loop maps every item to the same item with all its
slots run through the destroy path's state effect. -/
theorem unsetItems_items :
    ∀ (items : List Item) (k : Nat),
      (unsetItems k items).1 =
        items.map fun it =>
          { it with slots := it.slots.map mlxreg_hotplug_device_destroy_slot } := by
  intro items
  induction items with
  | nil => intro k; rfl
  | cons hd tl ih => intro k; simp [unsetItems, unsetItem, ih (k + 1)]

/-- C6 (counterexample): teardown does not clear the `attached` flag.  For a
single item with a single attached slot, `mlxreg_hotplug_unset_irq` invokes
the destroy path for that slot (clearing its client handle) and yet the slot
still has `attached = true` afterwards, so the claim that no slot retains
`attached == true` after teardown is false. -/
theorem teardown_leaves_attached_flag :
    (mlxreg_hotplug_unset_irq {}
      { items := [{ slots := [{ attached := true, client := true }] }] }).destroys = [(0, 0)] ∧
    (((mlxreg_hotplug_unset_irq {}
      { items := [{ slots := [{ attached := true, client := true }] }] }).items.headD
        {}).slots.headD {}).attached = true ∧
    (((mlxreg_hotplug_unset_irq {}
      { items := [{ slots := [{ attached := true, client := true }] }] }).items.headD
        {}).slots.headD {}).client = false := by
  decide

/-- C6 (amended): after teardown every slot of every item has had the destroy
path invoked for it exactly once, and no bound device handle remains (client
and adapter handles are cleared for every slot); the `attached` flag itself is
left unchanged by teardown. -/
theorem teardown_destroys_every_slot (cfg : Config) (s : HState) :
    (∀ it ∈ (mlxreg_hotplug_unset_irq cfg s).items, ∀ d ∈ it.slots,
      d.client = false ∧ d.adapter = false) ∧
    ((mlxreg_hotplug_unset_irq cfg s).destroys.Nodup) ∧
    (∀ (i j : Nat) (it : Item) (d : Slot), s.items[i]? = some it → it.slots[j]? = some d →
      ((i, j) ∈ (mlxreg_hotplug_unset_irq cfg s).destroys ∧
        ∃ it', (mlxreg_hotplug_unset_irq cfg s).items[i]? = some it' ∧
          it'.slots[j]? = some (mlxreg_hotplug_device_destroy_slot d) ∧
          (mlxreg_hotplug_device_destroy_slot d).attached = d.attached)) := by
  refine ⟨?_, unsetItems_destroys_nodup s.items 0, ?_⟩
  · intro it hit d hd
    have hitems : (mlxreg_hotplug_unset_irq cfg s).items =
        s.items.map fun it =>
          { it with slots := it.slots.map mlxreg_hotplug_device_destroy_slot } :=
      unsetItems_items s.items 0
    rw [hitems] at hit
    rcases List.mem_map.mp hit with ⟨it0, _, hit0⟩
    rw [← hit0] at hd
    simp only [] at hd
    rcases List.mem_map.mp hd with ⟨d0, _, hd0⟩
    rw [← hd0]
    exact ⟨rfl, rfl⟩
  · intro i j it d hget hslot
    constructor
    · have := unsetItems_destroys_mem s.items 0 i j it d hget hslot
      simpa using this
    · refine ⟨{ it with slots := it.slots.map mlxreg_hotplug_device_destroy_slot }, ?_, ?_, rfl⟩
      · have hitems : (mlxreg_hotplug_unset_irq cfg s).items =
            s.items.map fun it =>
              { it with slots := it.slots.map mlxreg_hotplug_device_destroy_slot } :=
          unsetItems_items s.items 0
        rw [hitems, List.getElem?_map, hget, Option.map_some']
      · simp only [List.getElem?_map, hslot, Option.map_some']

/-- C6 (witness): concrete teardown of one item with one attached slot — the
destroy invocation for the slot is recorded and the invocation list is
duplicate-free, so the destroy path ran exactly once for it. -/
theorem teardown_destroys_every_slot_witness :
    (0, 0) ∈ (mlxreg_hotplug_unset_irq {}
      { items := [{ slots := [{ attached := true, client := true }] }] }).destroys ∧
    (mlxreg_hotplug_unset_irq {}
      { items := [{ slots := [{ attached := true, client := true }] }] }).destroys.Nodup := by
  have h := teardown_destroys_every_slot {}
    { items := [{ slots := [{ attached := true, client := true }] }] }
  exact ⟨(h.2.2 0 0 { slots := [{ attached := true, client := true }] }
    { attached := true, client := true } rfl rfl).1, h.2.1⟩

/-! ## C7: no double bind -/

/-- C7 (confirmed): invoking the device-create path twice in a row for the
same slot without an intervening destroy does not double-bind.  The first call
registers the device; the second is rejected (the external binder refuses a
duplicate at the same bus address, the call returns -EFAULT) and the bus still
carries exactly one live device for the slot.  (The rejected second call also
overwrites the slot's stored client handle with NULL.) -/
theorem device_create_no_double_bind (shift : Int) (bus : Bus) (d : Slot)
    (hnotin : ¬ ((d.nr + shift, d.addr) ∈ bus)) (hnr : 0 ≤ d.nr) :
    (mlxreg_hotplug_device_create shift bus d).ret = 0 ∧
    (mlxreg_hotplug_device_create shift (mlxreg_hotplug_device_create shift bus d).bus
        (mlxreg_hotplug_device_create shift bus d).data).ret = -14 ∧
    (mlxreg_hotplug_device_create shift (mlxreg_hotplug_device_create shift bus d).bus
        (mlxreg_hotplug_device_create shift bus d).data).bus =
      (mlxreg_hotplug_device_create shift bus d).bus ∧
    ((mlxreg_hotplug_device_create shift (mlxreg_hotplug_device_create shift bus d).bus
        (mlxreg_hotplug_device_create shift bus d).data).bus).count (d.nr + shift, d.addr) = 1 ∧
    (mlxreg_hotplug_device_create shift (mlxreg_hotplug_device_create shift bus d).bus
        (mlxreg_hotplug_device_create shift bus d).data).data.client = false := by
  have hlt : ¬ d.nr < 0 := not_lt.mpr hnr
  have hcount : bus.count (d.nr + shift, d.addr) = 0 := List.count_eq_zero.mpr hnotin
  simp [mlxreg_hotplug_device_create, i2c_new_device, hlt, hnotin, hcount]

/-- C7 (witness): concrete double create for a slot at bus 0, address 5,
starting from an empty bus. -/
theorem device_create_no_double_bind_witness :
    (mlxreg_hotplug_device_create 0 [] { nr := 0, addr := 5 }).ret = 0 ∧
    (mlxreg_hotplug_device_create 0 (mlxreg_hotplug_device_create 0 [] { nr := 0, addr := 5 }).bus
        (mlxreg_hotplug_device_create 0 [] { nr := 0, addr := 5 }).data).ret = -14 := by
  have h := device_create_no_double_bind 0 [] { nr := 0, addr := 5 }
    (by decide) (by decide)
  exact ⟨h.1, h.2.1⟩

/-! ## C8: register I/O failure aborts the cycle at that point -/

/-- C8 (confirmed): any failed register operation makes the presence dispatch,
or the aggregation-level part of the handler, log and abort at that point: the
operation trace stops at the failing operation, no later register operation of
the dispatch is attempted, state mutated before the failure (the cache of a
successfully read value) is kept, and nothing is retried. -/
theorem io_failure_aborts (io : RegIo) (item : Item) (c0 : Bool) (cfg : Config) (s : HState) :
    (io.writeOk (item.reg + MLXREG_HOTPLUG_MASK_OFF) 0 = false →
      mlxreg_hotplug_work_helper io item c0 =
        ⟨item, [], c0, [RegOp.write (item.reg + MLXREG_HOTPLUG_MASK_OFF) 0], true⟩) ∧
    (io.writeOk (item.reg + MLXREG_HOTPLUG_MASK_OFF) 0 = true → io.readv item.reg = none →
      mlxreg_hotplug_work_helper io item c0 =
        ⟨item, [], c0,
         [RegOp.write (item.reg + MLXREG_HOTPLUG_MASK_OFF) 0, RegOp.read item.reg], true⟩) ∧
    (∀ raw : Nat, io.writeOk (item.reg + MLXREG_HOTPLUG_MASK_OFF) 0 = true →
      io.readv item.reg = some raw →
      io.writeOk (item.reg + MLXREG_HOTPLUG_EVENT_OFF) 0 = false →
      (mlxreg_hotplug_work_helper io item c0).err = true ∧
      (mlxreg_hotplug_work_helper io item c0).item.cache = u32 raw &&& item.mask ∧
      (mlxreg_hotplug_work_helper io item c0).trace =
        [RegOp.write (item.reg + MLXREG_HOTPLUG_MASK_OFF) 0, RegOp.read item.reg,
         RegOp.write (item.reg + MLXREG_HOTPLUG_EVENT_OFF) 0]) ∧
    (∀ raw : Nat, io.writeOk (item.reg + MLXREG_HOTPLUG_MASK_OFF) 0 = true →
      io.readv item.reg = some raw →
      io.writeOk (item.reg + MLXREG_HOTPLUG_EVENT_OFF) 0 = true →
      io.writeOk (item.reg + MLXREG_HOTPLUG_MASK_OFF) item.mask = false →
      (mlxreg_hotplug_work_helper io item c0).err = true ∧
      (mlxreg_hotplug_work_helper io item c0).item.cache = u32 raw &&& item.mask ∧
      (mlxreg_hotplug_work_helper io item c0).trace =
        [RegOp.write (item.reg + MLXREG_HOTPLUG_MASK_OFF) 0, RegOp.read item.reg,
         RegOp.write (item.reg + MLXREG_HOTPLUG_EVENT_OFF) 0,
         RegOp.write (item.reg + MLXREG_HOTPLUG_MASK_OFF) item.mask]) ∧
    (cfg.cell ≠ 0 → io.writeOk (cfg.cell + MLXREG_HOTPLUG_AGGR_MASK_OFF) 0 = false →
      mlxreg_hotplug_work_handler cfg io s =
        ⟨s, [], false, [RegOp.write (cfg.cell + MLXREG_HOTPLUG_AGGR_MASK_OFF) 0], true⟩) ∧
    (cfg.cell ≠ 0 → io.writeOk (cfg.cell + MLXREG_HOTPLUG_AGGR_MASK_OFF) 0 = true →
      io.readv cfg.cell = none →
      mlxreg_hotplug_work_handler cfg io s =
        ⟨s, [], false,
         [RegOp.write (cfg.cell + MLXREG_HOTPLUG_AGGR_MASK_OFF) 0, RegOp.read cfg.cell],
         true⟩) := by
  refine ⟨?_, ?_, ?_, ?_, ?_, ?_⟩
  · intro h1
    unfold mlxreg_hotplug_work_helper
    simp [h1]
  · intro h1 h2
    unfold mlxreg_hotplug_work_helper
    rw [h2]
    simp [h1]
  · intro raw h1 h2 h3
    unfold mlxreg_hotplug_work_helper
    rw [h2]
    simp [h1, h3]
  · intro raw h1 h2 h3 h4
    unfold mlxreg_hotplug_work_helper
    rw [h2]
    simp [h1, h3, h4]
  · intro hcell h1
    unfold mlxreg_hotplug_work_handler
    rw [if_pos hcell]
    simp [h1]
  · intro hcell h1 h2
    unfold mlxreg_hotplug_work_handler
    rw [if_pos hcell, h2]
    simp [h1]

/-- C8 (witness): concrete failing oracle — an oracle on which every write
fails makes the presence dispatch abort right after the initial mask write,
leaving the item untouched. -/
theorem io_failure_aborts_witness :
    mlxreg_hotplug_work_helper ⟨fun _ => none, fun _ _ => false⟩ { reg := 0, mask := 1 } false =
      ⟨{ reg := 0, mask := 1 }, [], false,
       [RegOp.write (0 + MLXREG_HOTPLUG_MASK_OFF) 0], true⟩ :=
  (io_failure_aborts ⟨fun _ => none, fun _ _ => false⟩ { reg := 0, mask := 1 } false {} {}).1 rfl

/-! ## C9: invalid item at dispatch entry -/

/-- C9 (code bug): the claim — and the comment in the code itself — say an
invalid item must be logged and returned from without crashing, but the
`dev_err` call in the NULL-item branch passes `item->reg` and `item->mask` as
format arguments, loading through the NULL pointer it just tested, so the
"log and return" path itself faults.  A valid item proceeds to dispatch, and a
status bit with no corresponding slot (here bit 1 of a one-slot item) resolves
to an out-of-bounds slot access with no guard and no log. -/
theorem null_item_guard_crashes :
    work_helper_entry none = EntryResult.oops ∧
    (∀ it : Item, work_helper_entry (some it) = EntryResult.dispatched) ∧
    slotForBit { slots := [{}] } 1 = none := by
  exact ⟨rfl, fun it => rfl, rfl⟩

end MlxregHotplug
